import Mathlib

/-!
Verification development for the wuzapi gateway core (src/main.go).

Pure fragments of the Go source are shallowly embedded as Lean functions;
package-level state (the kill-channel map, the auth cache) is embedded as
explicit state passed through operations.  Components of the repository whose
bodies are not part of the available source (Session Manager, Connection
Supervisor, HTTP auth boundary) are modelled from the specification, and each
such definition says so in its doc comment.
-/

namespace Wuzapi

/-! ## Process setup (src/main.go lines 46-61) -/

/-- Embeds the admin-token resolution in the Go `init` function
(src/main.go lines 56-60): the `--admintoken` flag value is kept unless it is
the empty string, in which case a non-empty `WUZAPI_ADMIN_TOKEN` environment
value replaces it. -/
def resolveAdminToken (flagVal envVal : String) : String :=
  if flagVal = "" then
    if envVal ≠ "" then envVal else flagVal
  else flagVal

/-! ## getWritableDbPath (src/main.go lines 63-81) -/

/-- Result of a function that either returns normally or terminates the
process with `log.Fatal`/`os.Exit`. -/
inductive ExitOr (α : Type) where
  | ok (a : α)
  | fatalExit (code : Nat)
  deriving DecidableEq, Repr

/-- Embeds `getWritableDbPath` (src/main.go lines 63-71).  The parameter
`mkdirOk` abstracts whether `os.MkdirAll("dbdata", 0755)` succeeds.  The
function returns the relative path `"dbdata"` unconditionally on success; the
`/tmp` fallback block (src/main.go lines 73-80) sits after the function's
`return` and closing brace and is never executed. -/
def getWritableDbPath (mkdirOk : Bool) : ExitOr String :=
  if mkdirOk then .ok "dbdata" else .fatalExit 1

/-- The fallback path built (in the dead code, src/main.go line 74) as
`filepath.Join(os.TempDir(), "wuzapi-dbdata")`. -/
def tmpFallbackPath (tmpDir : String) : String :=
  tmpDir ++ "/wuzapi-dbdata"

/-! ## The users table schema (src/main.go lines 96-109) -/

/-- One row of the `users` table as declared by the bootstrap DDL
(src/main.go lines 96-106).  `NOT NULL` columns are plain fields; `connected`
and `expiration` carry no `NOT NULL` and are nullable. -/
structure UserRow where
  id : Int
  name : String
  token : String
  webhook : String
  jid : String
  qrcode : String
  connected : Option Int
  expiration : Option Int
  events : String
  deriving DecidableEq, Repr

/-- `true` when key `f r` does not repeat in the table. -/
def uniqueBy {α : Type} [DecidableEq α] (f : UserRow → α) : List UserRow → Bool
  | [] => true
  | r :: rs => rs.all (fun s => f s ≠ f r) && uniqueBy f rs

/-- Embeds SQLite's behaviour on `INSERT` into the bootstrapped table: the
only uniqueness constraint in the DDL is `id INTEGER NOT NULL PRIMARY KEY`
(src/main.go line 97), so an insert fails exactly when the id is already
present; no column other than `id` is constrained to be unique. -/
def insertUser (t : List UserRow) (r : UserRow) : Option (List UserRow) :=
  if t.any (fun s => s.id = r.id) then none else some (r :: t)

/-- Table states reachable from the freshly bootstrapped (empty) table by
successful inserts. -/
inductive ReachableTable : List UserRow → Prop where
  | nil : ReachableTable []
  | insert {t t' : List UserRow} {r : UserRow} :
      ReachableTable t → insertUser t r = some t' → ReachableTable t'

/-! ## The auth cache (src/main.go line 42)

`userinfocache = cache.New(5*time.Minute, 10*time.Minute)` instantiates the
patrickmn/go-cache library.  The definitions below embed that library's
semantics: `New(defaultExpiration, cleanupInterval)` stores a default TTL and
starts a janitor that calls `DeleteExpired` every `cleanupInterval`; `Set`
records the value with absolute expiration `now + defaultExpiration`; `Get`
returns a miss when the current time is strictly past the stored expiration;
nothing in the library updates an entry's expiration on read. -/

/-- One nanosecond-valued minute, matching Go's `time.Minute`. -/
def timeMinute : Nat := 60 * 1000000000

/-- A stored cache item: value (resolved tenant id) and absolute expiration
time in nanoseconds, as in go-cache's `Item`. -/
structure CacheItem where
  value : Int
  expiration : Nat
  deriving DecidableEq, Repr

/-- The go-cache state: association list from token to item, plus the
default TTL and the janitor's sweep interval fixed at construction. -/
structure GoCache where
  items : List (String × CacheItem)
  defaultExpiration : Nat
  cleanupInterval : Nat
  deriving DecidableEq, Repr

/-- `cache.New(5*time.Minute, 10*time.Minute)` (src/main.go line 42). -/
def userinfocache : GoCache :=
  { items := [], defaultExpiration := 5 * timeMinute,
    cleanupInterval := 10 * timeMinute }

/-- go-cache `Set` with the default expiration: overwrites any entry for the
key and stores absolute expiration `now + defaultExpiration`. -/
def GoCache.set (c : GoCache) (now : Nat) (k : String) (v : Int) : GoCache :=
  { c with items :=
      (k, ⟨v, now + c.defaultExpiration⟩) :: c.items.filter (fun p => p.1 ≠ k) }

/-- go-cache `Get`: a miss when the key is absent or the current time is
strictly past the stored expiration; reads never mutate the cache. -/
def GoCache.get (c : GoCache) (now : Nat) (k : String) : Option Int :=
  match c.items.find? (fun p => p.1 = k) with
  | none => none
  | some p => if p.2.expiration < now then none else some p.2.value

/-- go-cache `DeleteExpired`, run by the janitor every `cleanupInterval`:
removes every item whose expiration is strictly past. -/
def GoCache.deleteExpired (c : GoCache) (now : Nat) : GoCache :=
  { c with items := c.items.filter (fun p => ¬ p.2.expiration < now) }

/-! ## Process shutdown (src/main.go lines 138-165) -/

/-- An observable action of the shutdown path.  `sessionStop` is the action
the specification asks for (a graceful Session stop with a reason); it is
listed so that its absence from the actual trace can be stated. -/
inductive ShutdownAction where
  | logServerStopped
  | httpShutdown (timeoutSeconds : Nat)
  | logShutdownFailed
  | exitProcess (code : Nat)
  | logExitedProperly
  | sessionStop (tenantId : Nat) (reasonShutdown : Bool)
  deriving DecidableEq, Repr

/-- Embeds what `main` does after the signal channel fires (src/main.go
lines 154-165): log, shut the HTTP server down under a 5-second context, and
either log the failure and exit 1 or log a clean exit.  `shutdownErr`
abstracts whether `srv.Shutdown(ctx)` returned an error.  No Session is
stopped anywhere on this path. -/
def mainShutdownTrace (shutdownErr : Bool) : List ShutdownAction :=
  [.logServerStopped, .httpShutdown 5] ++
    (if shutdownErr then [.logShutdownFailed, .exitProcess 1]
     else [.logExitedProperly])

/-- Recognizes a graceful Session-stop action. -/
def isSessionStop : ShutdownAction → Bool
  | .sessionStop _ _ => true
  | _ => false

/-! ## Session Manager (modelled from the spec)

The kill-channel registry `killchannel = make(map[int](chan bool))`
(src/main.go line 41) is the only Session Manager state visible in the
available source; the handlers that populate it are elsewhere in the
repository.  The operational model below is therefore built from the
specification, with the tenant-id-to-session mapping embedded — like the Go
map — as an association list keyed by tenant id. -/

/-- Modelled from the spec: the non-absent states of the per-tenant
connection state machine (spec 4.2); `absent` is represented by the id not
being bound in the Session Manager's mapping, matching the Go pattern of
deleting the id from `killchannel`. -/
inductive SessState where
  | connecting
  | connected
  | disconnecting
  | reconnecting
  deriving DecidableEq, Repr

/-- Modelled from the spec: a runtime Session — a cancellation channel
(identified by the number it was allocated with, cf. `killchannel`'s
`chan bool` values) and the current state-machine state. -/
structure Session where
  killch : Nat
  state : SessState
  deriving DecidableEq, Repr

/-- Modelled from the spec: the Session Manager's state — the tenant-id to
Session mapping (an association list, like the Go `map[int]`), plus a
counter for allocating fresh cancellation channels. -/
structure SMState where
  sessions : List (Nat × Session)
  nextCh : Nat
  deriving DecidableEq, Repr

/-- The control-plane errors of spec 7. -/
inductive SMError where
  | AlreadyActive
  | NotActive
  deriving DecidableEq, Repr

/-- The two stop reasons of spec 4.2. -/
inductive StopReason where
  | operatorRequested
  | shutdown
  deriving DecidableEq, Repr

/-- The empty Session Manager state at process start. -/
def SMState.initial : SMState := { sessions := [], nextCh := 0 }

/-- Lookup of a tenant's Session; `none` is the `absent` state. -/
def SMState.lookup (m : SMState) (id : Nat) : Option Session :=
  (m.sessions.find? (fun p => p.1 = id)).map (·.2)

/-- Removes a tenant's binding (reaching `absent`). -/
def SMState.remove (m : SMState) (id : Nat) : SMState :=
  { m with sessions := m.sessions.filter (fun p => p.1 ≠ id) }

/-- Rewrites the state of a tenant's Session in place. -/
def SMState.setState (m : SMState) (id : Nat) (st : SessState) : SMState :=
  { m with sessions :=
      m.sessions.map (fun p => if p.1 = id then (p.1, ⟨p.2.killch, st⟩) else p) }

/-- Modelled from the spec: `start(tenant id)` (spec 4.2) — fails with
`AlreadyActive` when a Session exists in any state other than `absent`;
otherwise allocates a fresh cancellation channel and binds the id in state
`connecting`. -/
def SMState.start (m : SMState) (id : Nat) : Except SMError SMState :=
  match m.lookup id with
  | some _ => .error .AlreadyActive
  | none => .ok { sessions := (id, ⟨m.nextCh, .connecting⟩) :: m.sessions,
                  nextCh := m.nextCh + 1 }

/-- Modelled from the spec: outcome of the external library's connection
attempt for a tenant in `connecting` or `reconnecting` — success reaches
`connected`; failure (pairing failure, retry-budget exhaustion) reaches
`absent`. -/
def SMState.connectResult (m : SMState) (id : Nat) (success : Bool) : SMState :=
  match m.lookup id with
  | some s =>
      if s.state = .connecting ∨ s.state = .reconnecting then
        if success then m.setState id .connected else m.remove id
      else m
  | none => m

/-- Modelled from the spec: a completed `stop(tenant id, reason)`
(spec 4.2) — fails with `NotActive` when no Session exists; otherwise the
session passes through `disconnecting` and reaches `absent`, its binding and
cancellation channel cleared.  Because the binding is gone, the disconnect
event that the teardown produces finds no session, which is how
`reason=operator-requested` suppresses automatic reconnection. -/
def SMState.stop (m : SMState) (id : Nat) (_reason : StopReason) :
    Except SMError SMState :=
  match m.lookup id with
  | some _ => .ok (m.remove id)
  | none => .error .NotActive

/-- Modelled from the spec: the handler for an unexpected disconnect report
from the library (spec 4.2) — only a tenant still bound in state `connected`
(no stop was requested) transitions to `reconnecting`; for any other or
unbound tenant the event is ignored. -/
def SMState.disconnectEvent (m : SMState) (id : Nat) : SMState :=
  match m.lookup id with
  | some s => if s.state = .connected then m.setState id .reconnecting else m
  | none => m

/-- A control-plane or library event, used to close the model under
arbitrary interleavings (per spec 5, per-tenant operations are serialized,
so a concurrent history is one linear sequence of these). -/
inductive SMOp where
  | start (id : Nat)
  | connectResult (id : Nat) (success : Bool)
  | stop (id : Nat) (reason : StopReason)
  | disconnectEvent (id : Nat)
  deriving DecidableEq, Repr

/-- Applies one event; rejected control-plane calls leave the state
unchanged. -/
def SMState.applyOp (m : SMState) : SMOp → SMState
  | .start id =>
      match m.start id with
      | .ok m2 => m2
      | .error _ => m
  | .connectResult id ok => m.connectResult id ok
  | .stop id r =>
      match m.stop id r with
      | .ok m2 => m2
      | .error _ => m
  | .disconnectEvent id => m.disconnectEvent id

/-- The state after an arbitrary event history from process start. -/
def SMState.run (ops : List SMOp) : SMState :=
  ops.foldl SMState.applyOp SMState.initial

/-- Number of Sessions bound to a tenant id. -/
def SMState.countId (m : SMState) (id : Nat) : Nat :=
  (m.sessions.filter (fun p => p.1 = id)).length

/-- The invariant the Session Manager promises (spec 3, 4.2): each tenant id
is bound at most once — the binding list has pairwise-distinct keys, exactly
as a Go map does by construction. -/
def SMInv (m : SMState) : Prop :=
  m.sessions.Pairwise (fun a b => a.1 ≠ b.1)

/-! ## Connection Supervisor (modelled from the spec)

`s.connectOnStartup()` is called at src/main.go line 127; its body is
elsewhere in the repository. -/

/-- The persisted connected flag read as a boolean: the `connected INTEGER`
column holds 1 for true. -/
def connectedFlag (r : UserRow) : Bool :=
  r.connected = some 1

/-- Modelled from the spec: `connectOnStartup` (spec 4.3) — walk the
TenantRecords, and for each one whose connected flag is true call Session
Manager `start`; a per-tenant failure is logged and the sweep continues.
`startOk` abstracts whether the start for a given tenant id succeeds; the
result lists each attempted tenant id with its outcome, in sweep order. -/
def connectOnStartup (recs : List UserRow) (startOk : Int → Bool) :
    List (Int × Bool) :=
  match recs with
  | [] => []
  | r :: rest =>
      if connectedFlag r then
        (r.id, startOk r.id) :: connectOnStartup rest startOk
      else
        connectOnStartup rest startOk

/-! ## HTTP auth boundary (modelled from the spec) -/

/-- Modelled from the spec: the persistence layer's `getByToken`
(spec 6) over the users table. -/
def getByToken (store : List UserRow) (tok : String) : Option UserRow :=
  store.find? (fun r => r.token = tok)

/-- Modelled from the spec: authenticating a request directly against the
TenantRecord store, with no cache: the resolved tenant id, or `none` for
rejection. -/
def authDirect (store : List UserRow) (tok : String) : Option Int :=
  (getByToken store tok).map (·.id)

/-- Modelled from the spec: the HTTP boundary's authentication with the Auth
Cache present (spec 4.1): `resolve` the token in the cache; on a hit use the
cached tenant id; on a miss query the store and, if found, `put` the pair —
a miss falls back and is never by itself a rejection. -/
def authWithCache (c : GoCache) (store : List UserRow) (now : Nat)
    (tok : String) : Option Int × GoCache :=
  match c.get now tok with
  | some id => (some id, c)
  | none =>
      match getByToken store tok with
      | some r => (some r.id, c.set now tok r.id)
      | none => (none, c)

/-! ## The cache semantics in the specification's words

For the comparison in claim C2 only: a cache whose entries expire after a
fixed idle window (time since last access) and a fixed absolute window (time
since insertion), whichever is reached first, reading the two constructor
arguments at src/main.go line 42 as those two windows. -/

/-- A spec-worded cache entry: value, insertion time, last-access time. -/
structure SpecCacheEntry where
  value : Int
  inserted : Nat
  lastAccess : Nat
  deriving DecidableEq, Repr

/-- The spec-worded cache state with its two expiry windows. -/
structure SpecCache where
  entries : List (String × SpecCacheEntry)
  idleWindow : Nat
  absoluteWindow : Nat
  deriving DecidableEq, Repr

/-- Alive per the spec's words: neither the idle window (since last access)
nor the absolute window (since insertion) has been reached. -/
def SpecCacheEntry.alive (e : SpecCacheEntry) (idleW absW now : Nat) : Bool :=
  now < e.lastAccess + idleW && now < e.inserted + absW

/-- Spec-worded `put`: overwrite the token's entry, restarting both
windows. -/
def SpecCache.put (c : SpecCache) (now : Nat) (k : String) (v : Int) :
    SpecCache :=
  { c with entries :=
      (k, ⟨v, now, now⟩) :: c.entries.filter (fun p => p.1 ≠ k) }

/-- Spec-worded `resolve`: a hit on a live entry records the access (the
idle window restarts); a dead or missing entry is a miss. -/
def SpecCache.resolve (c : SpecCache) (now : Nat) (k : String) :
    Option Int × SpecCache :=
  match c.entries.find? (fun p => p.1 = k) with
  | none => (none, c)
  | some p =>
      if p.2.alive c.idleWindow c.absoluteWindow now then
        (some p.2.value,
         { c with entries := c.entries.map (fun q =>
             if q.1 = k then (q.1, ⟨q.2.value, q.2.inserted, now⟩) else q) })
      else (none, c)

/-! ## Helper lemmas -/

theorem insertUser_uniqueBy_id {t t' : List UserRow} {r : UserRow}
    (h : insertUser t r = some t') (ht : uniqueBy (·.id) t = true) :
    uniqueBy (·.id) t' = true := by
  unfold insertUser at h
  by_cases hc : t.any (fun s => s.id = r.id)
  · simp [hc] at h
  · simp [hc] at h
    subst h
    simp [uniqueBy, ht, List.all_eq_true]
    intro s hs
    intro hid
    exact hc (List.any_eq_true.mpr ⟨s, hs, by simp [hid]⟩)

theorem reachable_uniqueBy_id {t : List UserRow} (h : ReachableTable t) :
    uniqueBy (·.id) t = true := by
  induction h with
  | nil => rfl
  | insert _ hins ih => exact insertUser_uniqueBy_id hins ih

theorem GoCache.get_set_self (c : GoCache) (t0 t : Nat) (k : String) (v : Int)
    (h : t ≤ t0 + c.defaultExpiration) :
    (c.set t0 k v).get t k = some v := by
  simp [GoCache.set, GoCache.get, List.find?, Nat.not_lt.mpr h]

theorem GoCache.get_set_self_expired (c : GoCache) (t0 t : Nat) (k : String)
    (v : Int) (h : t0 + c.defaultExpiration < t) :
    (c.set t0 k v).get t k = none := by
  simp [GoCache.set, GoCache.get, List.find?, h]

theorem setState_preserves_fst (id : Nat) (st : SessState) (p : Nat × Session) :
    (if p.1 = id then (p.1, Session.mk p.2.killch st) else p).1 = p.1 := by
  by_cases h : p.1 = id <;> simp [h]

theorem lookup_eq_none_iff (m : SMState) (id : Nat) :
    m.lookup id = none ↔ ∀ p ∈ m.sessions, p.1 ≠ id := by
  unfold SMState.lookup
  rw [Option.map_eq_none']
  rw [List.find?_eq_none]
  constructor
  · intro h p hp
    simpa using h p hp
  · intro h p hp
    simpa using h p hp

theorem SMInv_initial : SMInv SMState.initial :=
  List.Pairwise.nil

theorem SMInv_remove {m : SMState} (h : SMInv m) (id : Nat) :
    SMInv (m.remove id) :=
  List.Pairwise.sublist (List.filter_sublist _) h

theorem SMInv_setState {m : SMState} (h : SMInv m) (id : Nat) (st : SessState) :
    SMInv (m.setState id st) := by
  unfold SMInv SMState.setState at *
  rw [List.pairwise_map]
  refine List.Pairwise.imp ?_ h
  intro a b hab
  simpa [setState_preserves_fst] using hab

theorem SMInv_start {m : SMState} (h : SMInv m) {id : Nat} {m2 : SMState}
    (hs : m.start id = .ok m2) : SMInv m2 := by
  unfold SMState.start at hs
  cases hl : m.lookup id with
  | some s => rw [hl] at hs; cases hs
  | none =>
    rw [hl] at hs
    cases hs
    refine List.pairwise_cons.mpr ⟨?_, h⟩
    intro q hq
    exact fun hcontra => (lookup_eq_none_iff m id).mp hl q hq hcontra.symm

theorem stop_ok_eq {m m2 : SMState} {id : Nat} {r : StopReason}
    (h : m.stop id r = .ok m2) : m2 = m.remove id := by
  unfold SMState.stop at h
  cases hl : m.lookup id with
  | none => rw [hl] at h; cases h
  | some s => rw [hl] at h; cases h; rfl

theorem SMInv_applyOp {m : SMState} (h : SMInv m) (op : SMOp) :
    SMInv (m.applyOp op) := by
  cases op with
  | start id =>
    simp only [SMState.applyOp]
    cases hs : m.start id with
    | ok m2 => exact SMInv_start h hs
    | error e => exact h
  | connectResult id ok =>
    simp only [SMState.applyOp, SMState.connectResult]
    cases m.lookup id with
    | none => exact h
    | some s =>
      show SMInv (if s.state = SessState.connecting ∨ s.state = SessState.reconnecting
        then if ok = true then m.setState id SessState.connected else m.remove id
        else m)
      by_cases h1 : s.state = SessState.connecting ∨ s.state = SessState.reconnecting
      · rw [if_pos h1]
        cases ok with
        | false =>
          rw [if_neg (by simp)]
          exact SMInv_remove h id
        | true =>
          rw [if_pos rfl]
          exact SMInv_setState h id .connected
      · rw [if_neg h1]
        exact h
  | stop id r =>
    simp only [SMState.applyOp]
    cases hs : m.stop id r with
    | ok m2 => rw [stop_ok_eq hs]; exact SMInv_remove h id
    | error e => exact h
  | disconnectEvent id =>
    simp only [SMState.applyOp, SMState.disconnectEvent]
    cases m.lookup id with
    | none => exact h
    | some s =>
      show SMInv (if s.state = SessState.connected
        then m.setState id SessState.reconnecting else m)
      by_cases h1 : s.state = SessState.connected
      · rw [if_pos h1]
        exact SMInv_setState h id .reconnecting
      · rw [if_neg h1]
        exact h

theorem SMInv_run (ops : List SMOp) : SMInv (SMState.run ops) := by
  unfold SMState.run
  have step : ∀ (l : List SMOp) (m : SMState), SMInv m →
      SMInv (l.foldl SMState.applyOp m) := by
    intro l
    induction l with
    | nil => intro m hm; exact hm
    | cons op rest ih =>
      intro m hm
      exact ih _ (SMInv_applyOp hm op)
  exact step ops SMState.initial SMInv_initial

theorem countId_le_one {l : List (Nat × Session)}
    (h : l.Pairwise (fun a b => a.1 ≠ b.1)) (id : Nat) :
    (l.filter (fun p => p.1 = id)).length ≤ 1 := by
  induction l with
  | nil => simp
  | cons p rest ih =>
    rw [List.pairwise_cons] at h
    by_cases hp : p.1 = id
    · have hrest : rest.filter (fun q => decide (q.1 = id)) = [] := by
        rw [List.filter_eq_nil_iff]
        intro q hq
        simp only [decide_eq_true_eq]
        intro hq1
        exact h.1 q hq (hp.trans hq1.symm)
      simp [List.filter_cons, hp, hrest]
    · simpa [List.filter_cons, hp] using ih h.2

theorem lookup_remove_self (m : SMState) (id : Nat) :
    (m.remove id).lookup id = none := by
  rw [lookup_eq_none_iff]
  intro p hp
  unfold SMState.remove at hp
  simp only [List.mem_filter] at hp
  simpa using hp.2

theorem stop_ok_lookup {m m2 : SMState} {id : Nat} {r : StopReason}
    (h : m.stop id r = .ok m2) : m2.lookup id = none := by
  unfold SMState.stop at h
  cases hl : m.lookup id with
  | none => rw [hl] at h; cases h
  | some s =>
    rw [hl] at h
    cases h
    exact lookup_remove_self m id

theorem lookup_setState_none {m : SMState} {id : Nat} (h : m.lookup id = none)
    (j : Nat) (st : SessState) : (m.setState j st).lookup id = none := by
  rw [lookup_eq_none_iff] at h ⊢
  intro p hp
  unfold SMState.setState at hp
  simp only [List.mem_map] at hp
  obtain ⟨q, hq, rfl⟩ := hp
  rw [setState_preserves_fst]
  exact h q hq

theorem lookup_none_disconnectEvent {m : SMState} {id : Nat}
    (h : m.lookup id = none) (j : Nat) :
    (m.disconnectEvent j).lookup id = none := by
  unfold SMState.disconnectEvent
  cases m.lookup j with
  | none => exact h
  | some s =>
    by_cases h1 : s.state = .connected <;> simp only [h1, if_true, if_false]
    · exact lookup_setState_none h j .reconnecting
    · simpa [h1] using h

theorem lookup_none_disconnectEvents {m : SMState} {id : Nat}
    (h : m.lookup id = none) (evs : List Nat) :
    (evs.foldl SMState.disconnectEvent m).lookup id = none := by
  induction evs generalizing m with
  | nil => exact h
  | cons j rest ih => exact ih (lookup_none_disconnectEvent h j)

/-! ## Claim theorems -/

/-- C4 counterexample: the bootstrapped schema does not enforce token
uniqueness — starting from the bootstrapped empty `users` table, successful
inserts reach a table holding two distinct records (ids 1 and 2) that share
the token `"sametok"`, so the claimed invariant fails on that reachable
state. -/
theorem claim4_counterexample :
    ReachableTable
      [⟨2, "bob", "sametok", "", "", "", none, none, "All"⟩,
       ⟨1, "alice", "sametok", "", "", "", none, none, "All"⟩] ∧
    uniqueBy (·.token)
      [⟨2, "bob", "sametok", "", "", "", none, none, "All"⟩,
       ⟨1, "alice", "sametok", "", "", "", none, none, "All"⟩] = false := by
  constructor
  · have h1 : insertUser []
        (⟨1, "alice", "sametok", "", "", "", none, none, "All"⟩ : UserRow) =
        some [⟨1, "alice", "sametok", "", "", "", none, none, "All"⟩] := rfl
    have h2 : insertUser
        [(⟨1, "alice", "sametok", "", "", "", none, none, "All"⟩ : UserRow)]
        (⟨2, "bob", "sametok", "", "", "", none, none, "All"⟩ : UserRow) =
        some [⟨2, "bob", "sametok", "", "", "", none, none, "All"⟩,
              ⟨1, "alice", "sametok", "", "", "", none, none, "All"⟩] := rfl
    exact ReachableTable.insert (ReachableTable.insert ReachableTable.nil h1) h2
  · decide

/-- C4 amended: the only uniqueness the bootstrapped schema enforces is of
the `id` primary key — every `users` table reachable from the bootstrapped
empty table by successful inserts has pairwise-distinct ids; the `token`
column carries no uniqueness constraint (see the counterexample). -/
theorem claim4_id_unique (t : List UserRow) (h : ReachableTable t) :
    uniqueBy (·.id) t = true :=
  reachable_uniqueBy_id h

/-- Witness for C4's amended theorem at a concrete two-row reachable
table. -/
theorem claim4_witness :
    uniqueBy (·.id)
      [⟨2, "bob", "tokB", "", "", "", none, none, "All"⟩,
       ⟨1, "alice", "tokA", "", "", "", none, none, "All"⟩] = true := by
  have h1 : insertUser []
      (⟨1, "alice", "tokA", "", "", "", none, none, "All"⟩ : UserRow) =
      some [⟨1, "alice", "tokA", "", "", "", none, none, "All"⟩] := rfl
  have h2 : insertUser
      [(⟨1, "alice", "tokA", "", "", "", none, none, "All"⟩ : UserRow)]
      (⟨2, "bob", "tokB", "", "", "", none, none, "All"⟩ : UserRow) =
      some [⟨2, "bob", "tokB", "", "", "", none, none, "All"⟩,
            ⟨1, "alice", "tokA", "", "", "", none, none, "All"⟩] := rfl
  exact claim4_id_unique _
    (ReachableTable.insert (ReachableTable.insert ReachableTable.nil h1) h2)

/-- C5 counterexample: with an active Session for tenant 1, the shutdown
path of `main` (src/main.go lines 154-165) contains no graceful stop action
for it, in either outcome of the HTTP shutdown — only the HTTP server is
stopped. -/
theorem claim5_counterexample :
    ShutdownAction.sessionStop 1 true ∉ mainShutdownTrace false ∧
    ShutdownAction.sessionStop 1 true ∉ mainShutdownTrace true := by
  decide

/-- C5 amended: on receipt of a termination signal the process performs a
bounded-time (5-second) graceful stop of the HTTP server only; no Session is
stopped on the shutdown path, and a failed HTTP shutdown exits with code
1. -/
theorem claim5_shutdown_http_only (shutdownErr : Bool) :
    ShutdownAction.httpShutdown 5 ∈ mainShutdownTrace shutdownErr ∧
    (mainShutdownTrace shutdownErr).filter isSessionStop = [] ∧
    (shutdownErr = true →
      ShutdownAction.exitProcess 1 ∈ mainShutdownTrace shutdownErr) := by
  cases shutdownErr with
  | false => exact ⟨by decide, by decide, fun h => absurd h (by decide)⟩
  | true => exact ⟨by decide, by decide, fun _ => by decide⟩

/-- Witness for C5's amended theorem in the failing-HTTP-shutdown case. -/
theorem claim5_witness :
    ShutdownAction.httpShutdown 5 ∈ mainShutdownTrace true ∧
    (mainShutdownTrace true).filter isSessionStop = [] ∧
    ShutdownAction.exitProcess 1 ∈ mainShutdownTrace true :=
  ⟨(claim5_shutdown_http_only true).1, (claim5_shutdown_http_only true).2.1,
   (claim5_shutdown_http_only true).2.2 rfl⟩

/-- C9: whenever `getWritableDbPath` returns, it returns the fixed relative
path `"dbdata"`; the fallback path under the system temp directory
(`"wuzapi-dbdata"`) is never returned, for any temp directory, because the
function returns unconditionally before the fallback code is reached. -/
theorem claim9_db_path_fixed (mkdirOk : Bool) (p : String)
    (h : getWritableDbPath mkdirOk = ExitOr.ok p) :
    p = "dbdata" ∧ ∀ tmpDir, p ≠ tmpFallbackPath tmpDir := by
  have hp : p = "dbdata" := by
    cases mkdirOk with
    | true =>
      simp only [getWritableDbPath, if_pos] at h
      cases h
      rfl
    | false => simp [getWritableDbPath] at h
  subst hp
  refine ⟨rfl, ?_⟩
  intro tmpDir heq
  have hlen := congrArg String.length heq
  have hl : ("/wuzapi-dbdata" : String).length = 14 := rfl
  have h14 : (tmpFallbackPath tmpDir).length = tmpDir.length + 14 := by
    show (tmpDir ++ "/wuzapi-dbdata").length = tmpDir.length + 14
    rw [String.length_append, hl]
  rw [h14] at hlen
  have h6 : ("dbdata" : String).length = 6 := rfl
  rw [h6] at hlen
  omega

/-- Witness for C9: on a successful MkdirAll the function returns
`"dbdata"`, which differs from the fallback path under `"/tmp"`. -/
theorem claim9_witness :
    getWritableDbPath true = ExitOr.ok "dbdata" ∧
    ("dbdata" : String) ≠ tmpFallbackPath "/tmp" :=
  ⟨rfl, (claim9_db_path_fixed true "dbdata" rfl).2 "/tmp"⟩

/-- C10: the admin token is taken from `WUZAPI_ADMIN_TOKEN` only when the
`--admintoken` flag value is empty; a non-empty flag value is preserved, and
when both flag and environment are empty the admin token stays empty. -/
theorem claim10_admin_token_priority (flagVal envVal : String) :
    (flagVal ≠ "" → resolveAdminToken flagVal envVal = flagVal) ∧
    (flagVal = "" → envVal ≠ "" → resolveAdminToken flagVal envVal = envVal) ∧
    (flagVal = "" → envVal = "" → resolveAdminToken flagVal envVal = "") := by
  refine ⟨?_, ?_, ?_⟩
  · intro h
    simp [resolveAdminToken, h]
  · intro h he
    simp [resolveAdminToken, h, he]
  · intro h he
    simp [resolveAdminToken, h, he]

/-- Witness for C10 at concrete flag and environment values. -/
theorem claim10_witness :
    resolveAdminToken "flagtok" "envtok" = "flagtok" ∧
    resolveAdminToken "" "envtok" = "envtok" ∧
    resolveAdminToken "" "" = "" :=
  ⟨(claim10_admin_token_priority "flagtok" "envtok").1 (by decide),
   (claim10_admin_token_priority "" "envtok").2.1 rfl (by decide),
   (claim10_admin_token_priority "" "").2.2 rfl rfl⟩

/-- C1: along every event history (the linearization of any concurrent
start/stop/connect/disconnect attempts — per-tenant operations are
serialized), every tenant id is bound to at most one Session (at most one
cancellation channel in the kill-channel mapping), and a start for a tenant
already bound in any non-absent state is rejected with `AlreadyActive`
without touching the mapping. -/
theorem claim1_one_session_per_tenant (ops : List SMOp) (id : Nat) :
    (SMState.run ops).countId id ≤ 1 ∧
    (∀ s, (SMState.run ops).lookup id = some s →
      (SMState.run ops).start id = Except.error SMError.AlreadyActive) := by
  constructor
  · exact countId_le_one (SMInv_run ops) id
  · intro s hs
    unfold SMState.start
    rw [hs]

/-- Witness for C1: after a start for tenant 1, the binding is unique and a
second start is rejected. -/
theorem claim1_witness :
    (SMState.run [SMOp.start 1]).countId 1 ≤ 1 ∧
    (SMState.run [SMOp.start 1]).start 1 =
      Except.error SMError.AlreadyActive :=
  ⟨(claim1_one_session_per_tenant [SMOp.start 1] 1).1,
   (claim1_one_session_per_tenant [SMOp.start 1] 1).2
     ⟨0, SessState.connecting⟩ rfl⟩

/-- C8: once a stop(tenant id, reason=operator-requested) has completed, any
sequence of subsequent disconnect events for that tenant leaves it absent:
no transition to `reconnecting` and no re-established session without a new
explicit start. -/
theorem claim8_stop_suppresses_reconnect (m m2 : SMState) (id : Nat)
    (h : m.stop id StopReason.operatorRequested = Except.ok m2)
    (evs : List Nat) :
    (evs.foldl SMState.disconnectEvent m2).lookup id = none :=
  lookup_none_disconnectEvents (stop_ok_lookup h) evs

/-- Witness for C8: tenant 1 is started and connected, then stopped with
reason operator-requested; two subsequent disconnect events leave it
absent. -/
theorem claim8_witness :
    (([1, 1] : List Nat).foldl SMState.disconnectEvent
      (SMState.mk [] 1)).lookup 1 = none :=
  claim8_stop_suppresses_reconnect
    (SMState.run [SMOp.start 1, SMOp.connectResult 1 true]) (SMState.mk [] 1)
    1 rfl [1, 1]

/-- C6: the supervisor sweep attempts a start for exactly the records whose
persisted connected flag is true (in store order), for every possible
pattern of per-tenant start failures — so one tenant's failure never
prevents the remaining starts — and a tenant id none of whose records is
flagged connected is never started. -/
theorem claim6_supervisor_starts_connected (recs : List UserRow)
    (startOk : Int → Bool) :
    ((connectOnStartup recs startOk).map Prod.fst =
      (recs.filter connectedFlag).map (·.id)) ∧
    (∀ id, (∀ r ∈ recs, r.id = id → connectedFlag r = false) →
      ∀ b, (id, b) ∉ connectOnStartup recs startOk) := by
  constructor
  · induction recs with
    | nil => rfl
    | cons r rest ih =>
      by_cases hc : connectedFlag r = true
      · simp [connectOnStartup, List.filter_cons, hc, ih]
      · simp [connectOnStartup, List.filter_cons, hc, ih]
  · induction recs with
    | nil =>
      intro id hnone b hmem
      cases hmem
    | cons r rest ih =>
      intro id hnone b hmem
      have hrest := ih id
        (fun q hq hq1 => hnone q (List.mem_cons_of_mem r hq) hq1) b
      unfold connectOnStartup at hmem
      by_cases hc : connectedFlag r = true
      · rw [if_pos hc] at hmem
        cases hmem with
        | head =>
          have hflag := hnone r (List.mem_cons_self r rest) rfl
          rw [hc] at hflag
          cases hflag
        | tail _ hm => exact hrest hm
      · rw [if_neg hc] at hmem
        exact hrest hmem

/-- Witness for C6 on the specification's own scenario: three records
flagged connected (tenants 1, 2, 4) and one not (tenant 3), with the start
for tenant 2 failing: exactly 1, 2 and 4 are attempted — the failure at 2
does not stop 4 — and tenant 3 is never started. -/
theorem claim6_witness :
    ((connectOnStartup
        [⟨1, "a", "t1", "", "", "", some 1, none, "All"⟩,
         ⟨2, "b", "t2", "", "", "", some 1, none, "All"⟩,
         ⟨3, "c", "t3", "", "", "", none, none, "All"⟩,
         ⟨4, "d", "t4", "", "", "", some 1, none, "All"⟩]
        (fun i => i ≠ 2)).map Prod.fst = ([1, 2, 4] : List Int)) ∧
    ((3 : Int), true) ∉ connectOnStartup
        [⟨1, "a", "t1", "", "", "", some 1, none, "All"⟩,
         ⟨2, "b", "t2", "", "", "", some 1, none, "All"⟩,
         ⟨3, "c", "t3", "", "", "", none, none, "All"⟩,
         ⟨4, "d", "t4", "", "", "", some 1, none, "All"⟩]
        (fun i => i ≠ 2) :=
  ⟨((claim6_supervisor_starts_connected
      [⟨1, "a", "t1", "", "", "", some 1, none, "All"⟩,
       ⟨2, "b", "t2", "", "", "", some 1, none, "All"⟩,
       ⟨3, "c", "t3", "", "", "", none, none, "All"⟩,
       ⟨4, "d", "t4", "", "", "", some 1, none, "All"⟩]
      (fun i => i ≠ 2)).1).trans (by decide),
   (claim6_supervisor_starts_connected
      [⟨1, "a", "t1", "", "", "", some 1, none, "All"⟩,
       ⟨2, "b", "t2", "", "", "", some 1, none, "All"⟩,
       ⟨3, "c", "t3", "", "", "", none, none, "All"⟩,
       ⟨4, "d", "t4", "", "", "", some 1, none, "All"⟩]
      (fun i => i ≠ 2)).2 3 (by decide) true⟩

/-- C2 counterexample: the cache at src/main.go line 42 has no idle window.
On the concrete trace put at 0, access at minute 3 (a hit), access at minute
7, the code's cache misses at minute 7, although under the claimed semantics
— idle window 5 minutes since last access, absolute window 10 minutes since
insertion, whichever first — the entry would still be alive (4 minutes idle,
7 minutes old) and resolve would hit. -/
theorem claim2_counterexample :
    ((userinfocache.set 0 "tok" 7).get (3 * timeMinute) "tok" = some 7 ∧
     (userinfocache.set 0 "tok" 7).get (7 * timeMinute) "tok" = none) ∧
    ((((SpecCache.mk [] (5 * timeMinute) (10 * timeMinute)).put 0 "tok"
          7).resolve (3 * timeMinute) "tok").1 = some 7 ∧
     (((((SpecCache.mk [] (5 * timeMinute) (10 * timeMinute)).put 0 "tok"
          7).resolve (3 * timeMinute) "tok").2).resolve (7 * timeMinute)
          "tok").1 = some 7) := by
  refine ⟨⟨?_, ?_⟩, ?_, ?_⟩ <;> decide

/-- C2 amended: every entry of the cache created at src/main.go line 42
expires after a fixed absolute window only — `defaultExpiration`
(5 minutes) after its insertion: any access up to that point hits, any later
access misses, and accesses never extend an entry's lifetime (reads do not
mutate the cache).  The second constructor argument (10 minutes) is the
janitor's sweep interval, and the sweep removes exactly the entries that are
already expired. -/
theorem claim2_absolute_ttl_only (c : GoCache) (t0 t t1 : Nat) (k : String)
    (v : Int) :
    userinfocache.defaultExpiration = 5 * timeMinute ∧
    userinfocache.cleanupInterval = 10 * timeMinute ∧
    (t ≤ t0 + c.defaultExpiration → (c.set t0 k v).get t k = some v) ∧
    (t0 + c.defaultExpiration < t → (c.set t0 k v).get t k = none) ∧
    (∀ p, p ∈ (c.deleteExpired t1).items ↔
      p ∈ c.items ∧ ¬ p.2.expiration < t1) := by
  refine ⟨rfl, rfl, GoCache.get_set_self c t0 t k v,
    GoCache.get_set_self_expired c t0 t k v, ?_⟩
  intro p
  unfold GoCache.deleteExpired
  simp [List.mem_filter]

/-- Witness for C2's amended theorem: a put at time 0 hits at minute 1 and
misses at minute 6. -/
theorem claim2_witness :
    (userinfocache.set 0 "tok" 7).get timeMinute "tok" = some 7 ∧
    (userinfocache.set 0 "tok" 7).get (6 * timeMinute) "tok" = none :=
  ⟨(claim2_absolute_ttl_only userinfocache 0 timeMinute 0 "tok" 7).2.2.1
      (by decide),
   (claim2_absolute_ttl_only userinfocache 0 (6 * timeMinute) 0 "tok"
      7).2.2.2.1 (by decide)⟩

/-- C3: after put(token, id) at time t0, resolve returns id at every access
up to the TTL and miss at every later access with no further writes; a
second put overwrites the token's entry and resets its expiry (the earlier
write becomes irrelevant); and an expired entry is never returned as a
hit. -/
theorem claim3_put_resolve_ttl (c : GoCache) (t0 t1 t : Nat) (k : String)
    (v w : Int) :
    (t ≤ t0 + c.defaultExpiration → (c.set t0 k v).get t k = some v) ∧
    (t0 + c.defaultExpiration < t → (c.set t0 k v).get t k = none) ∧
    ((c.set t0 k v).set t1 k w).get t k = (c.set t1 k w).get t k ∧
    (∀ it, c.items.find? (fun p => p.1 = k) = some it →
      it.2.expiration < t → c.get t k = none) := by
  refine ⟨GoCache.get_set_self c t0 t k v,
    GoCache.get_set_self_expired c t0 t k v, ?_, ?_⟩
  · have e1 : ((c.set t0 k v).set t1 k w).get t k =
        (if t1 + c.defaultExpiration < t then none else some w) := by
      simp [GoCache.set, GoCache.get, List.find?]
    have e2 : (c.set t1 k w).get t k =
        (if t1 + c.defaultExpiration < t then none else some w) := by
      simp [GoCache.set, GoCache.get, List.find?]
    rw [e1, e2]
  · intro it hf hexp
    unfold GoCache.get
    rw [hf]
    show (if it.2.expiration < t then none else some it.2.value) = none
    rw [if_pos hexp]

/-- Witness for C3 on a cache that already holds an expired entry for the
token: a fresh put hits at minute 1, misses at minute 6, and the preexisting
expired entry is not returned as a hit. -/
theorem claim3_witness :
    ((GoCache.mk [("tok", ⟨9, 0⟩)] (5 * timeMinute)
        (10 * timeMinute)).set 0 "tok" 7).get timeMinute "tok" = some 7 ∧
    ((GoCache.mk [("tok", ⟨9, 0⟩)] (5 * timeMinute)
        (10 * timeMinute)).set 0 "tok" 7).get (6 * timeMinute) "tok" =
      none ∧
    (GoCache.mk [("tok", ⟨9, 0⟩)] (5 * timeMinute)
        (10 * timeMinute)).get 1 "tok" = none :=
  ⟨(claim3_put_resolve_ttl
      (GoCache.mk [("tok", ⟨9, 0⟩)] (5 * timeMinute) (10 * timeMinute))
      0 0 timeMinute "tok" 7 8).1 (by decide),
   (claim3_put_resolve_ttl
      (GoCache.mk [("tok", ⟨9, 0⟩)] (5 * timeMinute) (10 * timeMinute))
      0 0 (6 * timeMinute) "tok" 7 8).2.1 (by decide),
   (claim3_put_resolve_ttl
      (GoCache.mk [("tok", ⟨9, 0⟩)] (5 * timeMinute) (10 * timeMinute))
      0 0 1 "tok" 7 8).2.2.2 ("tok", ⟨9, 0⟩) rfl (by decide)⟩

/-- C7 counterexample: the Auth Cache is not a pure optimization in every
cache-and-store state: with an empty TenantRecord store and a live stale
cache entry binding token "t" to tenant 9, authentication with the cache
accepts tenant 9 while authentication against the store alone rejects. -/
theorem claim7_counterexample :
    (authWithCache
        (GoCache.mk [("t", ⟨9, 10⟩)] (5 * timeMinute) (10 * timeMinute))
        [] 0 "t").1 = some 9 ∧
    authDirect [] "t" = none := by
  constructor <;> rfl

/-- C7 amended: a cache miss is never treated as token-invalid — on a miss
the boundary resolves exactly as the store does — and whenever every cache
hit for the token agrees with the store (as when entries were put from
still-current store rows), authentication with the cache resolves to the
same tenant-or-rejection outcome as authenticating directly against the
store. -/
theorem claim7_cache_refinement (c : GoCache) (store : List UserRow)
    (now : Nat) (tok : String)
    (hcoh : ∀ v, c.get now tok = some v → authDirect store tok = some v) :
    (authWithCache c store now tok).1 = authDirect store tok := by
  unfold authWithCache
  cases hg : c.get now tok with
  | some v => simpa using (hcoh v hg).symm
  | none =>
    unfold authDirect
    cases hb : getByToken store tok <;> simp [hb]

/-- Witness for C7's amended theorem: a cache entry put from the current
store row for token "t" resolves to the same tenant as the store. -/
theorem claim7_witness :
    (authWithCache (userinfocache.set 0 "t" 5)
        [⟨5, "eve", "t", "", "", "", none, none, "All"⟩] timeMinute
        "t").1 =
      authDirect [⟨5, "eve", "t", "", "", "", none, none, "All"⟩] "t" :=
  claim7_cache_refinement (userinfocache.set 0 "t" 5)
    [⟨5, "eve", "t", "", "", "", none, none, "All"⟩] timeMinute "t"
    (fun v hv => by
      have h5 : (userinfocache.set 0 "t" 5).get timeMinute "t" = some 5 := by
        decide
      rw [h5] at hv
      injection hv with h
      rw [← h]
      rfl)

end Wuzapi
